import Mathlib

/-!
Verification development for the pyConverter repository.

The embedding covers the two source files:
* `src/main/python/package/image.py` — the `CustomImage` class (constructor and
  `reduce_image`), including the `os.path` helpers it calls
  (`dirname`, `basename`, `join`), modelled on POSIX path semantics
  (`posixpath.dirname` / `posixpath.basename` / `posixpath.join`).
* `src/main/python/package/main_window.py` — the `Worker` batch loop
  (`convert_images`), `MainWindow.convert_images` (batch start),
  `MainWindow.image_converted` (per-item callback) and `MainWindow.add_file`.

The file system is modelled as an association list from paths to images; a
save prepends an entry, so lookup returns the most recently written file.
Python exceptions (from `Image.open`, `os.makedirs` or `Image.save`) are
modelled by an explicit outcome type: an exception propagates out of the
worker loop, exactly as an uncaught Python exception would.
-/

namespace PyConverter

/-! ### POSIX path helpers

`os.path` on POSIX is `posixpath`.  `posixpath.basename(p)` is `p[i:]` and the
raw head of `posixpath.dirname(p)` is `p[:i]`, where `i = p.rfind(sep) + 1`;
the dirname head is then right-stripped of slashes unless it is empty or all
slashes.  `splitAtLastSlash` returns the pair `(p[:i], p[i:])`. -/

def splitAtLastSlash : List Char → List Char × List Char
  | [] => ([], [])
  | c :: rest =>
    if rest.contains (Char.ofNat 47) then
      ((splitAtLastSlash rest).1.cons c, (splitAtLastSlash rest).2)
    else if c = Char.ofNat 47 then
      ([c], rest)
    else
      ([], c :: rest)

/-- `posixpath.dirname` on a list of characters: take `p[:i]`, then strip
trailing slashes unless the head is empty or consists only of slashes. -/
def dirnameL (l : List Char) : List Char :=
  let head := (splitAtLastSlash l).1
  if head ≠ [] ∧ head.any (fun c => c ≠ Char.ofNat 47) then
    (head.reverse.dropWhile (fun c => c = Char.ofNat 47)).reverse
  else head

/-- `posixpath.basename` on a list of characters: `p[i:]`. -/
def basenameL (l : List Char) : List Char := (splitAtLastSlash l).2

def dirname (s : String) : String := String.mk (dirnameL s.data)

def basename (s : String) : String := String.mk (basenameL s.data)

/-- One step of `posixpath.join`: absolute second component resets the path;
otherwise the separator is inserted unless the accumulated path is empty or
already ends with a slash. -/
def joinOneL (path b : List Char) : List Char :=
  if b.head? = some (Char.ofNat 47) then b
  else if path = [] ∨ path.getLast? = some (Char.ofNat 47) then path ++ b
  else path ++ Char.ofNat 47 :: b

/-- `os.path.join(a, b, c)` for three components, as called in
`CustomImage.__init__`. -/
def join3 (a b c : String) : String :=
  String.mk (joinOneL (joinOneL a.data b.data) c.data)

example : dirname "/a/b/c.png" = "/a/b" := by decide
example : basename "/a/b/c.png" = "c.png" := by decide
example : join3 "/a/b" "reduced" "c.png" = "/a/b/reduced/c.png" := by decide

/-! ### Python rounding

`round()` in Python 3 rounds to the nearest integer with ties going to the
even integer (banker's rounding).  The size factor `spn_size.value() / 100.0`
is modelled as a rational number. -/

/-- Python 3 `round()` on a rational: nearest integer, ties to even. -/
def pyRound (q : ℚ) : ℤ :=
  let f : ℤ := q.floor
  let frac : ℚ := q - (f : ℚ)
  if frac < 1 / 2 then f
  else if 1 / 2 < frac then f + 1
  else if f % 2 = 0 then f else f + 1

section
attribute [local semireducible] Rat.mul Rat.inv Rat.add Rat.sub

example : pyRound (1 / 2) = 0 := by decide
example : pyRound (3 / 2) = 2 := by decide
example : pyRound (5 / 2) = 2 := by decide
example : pyRound (400 : ℚ) = 400 := by decide
example : pyRound ((800 : ℚ) * (1 / 2)) = 400 := by decide

end

/-! ### The file system and PIL images

Only what the claims need from PIL is modelled: an image is its pixel
dimensions, and the file system maps paths to images.  Saving prepends an
entry, so a second save to the same path overwrites the first as far as
lookup is concerned.  Whether `Image.save` actually produces the file is
outside the program (codec/OS behaviour), so `reduce_image` is parametrised
by a `saveWrites` flag; the program itself only observes the file system
through `os.path.exists`. -/

structure PILImage where
  width : ℕ
  height : ℕ
  deriving DecidableEq, Repr

abbrev FS := List (String × PILImage)

/-- `Image.open`: the file at `p`, if present and readable. -/
def FS.openFile (fs : FS) (p : String) : Option PILImage :=
  fs.lookup p

/-- `Image.save`: write `img` at path `p` (later entries shadow earlier ones). -/
def FS.save (fs : FS) (p : String) (img : PILImage) : FS :=
  (p, img) :: fs

/-- `os.path.exists` restricted to files (directory creation is not modelled). -/
def FS.existsFile (fs : FS) (p : String) : Bool :=
  (fs.lookup p).isSome

/-! ### `CustomImage` (image.py) -/

/-- The `CustomImage` object right after `__init__`:
`self.image`, `self.width`, `self.height`, `self.path`, `self.reduced_path`. -/
structure CustomImage where
  image : PILImage
  width : ℕ
  height : ℕ
  path : String
  reduced_path : String
  deriving DecidableEq, Repr

/-- `CustomImage.__init__(path, folder="reduced")`: open the image, record its
size and compute `os.path.join(os.path.dirname(path), folder,
os.path.basename(path))`.  `Image.open` raising (unreadable or corrupt file)
is the `none` case. -/
def CustomImage.init (fs : FS) (path : String) (folder : String) :
    Option CustomImage :=
  match fs.openFile path with
  | none => none
  | some img =>
    some { image := img
           width := img.width
           height := img.height
           path := path
           reduced_path := join3 (dirname path) folder (basename path) }

/-- The result of one `reduce_image` call: the mutated `self`, the file
system after the save, and the returned boolean. -/
structure ReduceResult where
  self : CustomImage
  fs : FS
  ret : Bool
  deriving DecidableEq, Repr

/-- `CustomImage.reduce_image(size=0.5, quality=75)`: compute
`round(width*size)` and `round(height*size)`, resize, create the output
directory if needed (directories are not modelled), save as JPEG at the given
quality, and return `os.path.exists(reduced_path)`.  `saveWrites` says whether
the save call actually left a file on disk; the JPEG payload and quality are
abstracted away, only the dimensions of the written image are kept. -/
def CustomImage.reduce_image (ci : CustomImage) (fs : FS) (size : ℚ)
    (quality : ℕ) (saveWrites : Bool) : ReduceResult :=
  let new_width : ℕ := (pyRound ((ci.width : ℚ) * size)).toNat
  let new_height : ℕ := (pyRound ((ci.height : ℚ) * size)).toNat
  let resized : PILImage := { width := new_width, height := new_height }
  let fs2 : FS := if saveWrites then fs.save ci.reduced_path resized else fs
  { self := { ci with image := resized }
    fs := fs2
    ret := fs2.existsFile ci.reduced_path }

/-! ### List items, worker and main window (main_window.py) -/

inductive Icon where
  | unchecked
  | checked
  deriving DecidableEq, Repr

/-- A `QListWidgetItem` as the application uses it: its text (the source
path), its icon, and the dynamically attached `processed` attribute. -/
structure LwItem where
  text : String
  icon : Icon
  processed : Bool
  deriving DecidableEq, Repr

/-- `MainWindow.image_converted(lw_item, success)`: on success set the
checked icon and `processed = True` (the progress-dialog update is not
modelled); on failure the item is left untouched. -/
def MainWindow.image_converted (lw_item : LwItem) (success : Bool) : LwItem :=
  if success then { lw_item with icon := Icon.checked, processed := true }
  else lw_item

/-- The outcome of one conversion attempt, i.e. of `CustomImage(path=...)`
followed by `reduce_image(...)` on one source path: either the boolean that
`reduce_image` returned, or a raised exception (`Image.open` on an unreadable
or corrupt file, `os.makedirs` on an uncreatable directory, `Image.save`). -/
inductive ConvOutcome where
  | ok (success : Bool)
  | exn
  deriving DecidableEq, Repr

/-- What one run of `Worker.convert_images` produced: the list items after
the run, the `image_converted` emissions in order (source path and success
flag), and how many times `finished` was emitted. -/
structure WorkerRun where
  items : List LwItem
  events : List (String × Bool)
  finishedCount : ℕ
  deriving DecidableEq, Repr

/-- The loop of `Worker.convert_images`.  `convert` is the combined effect of
one conversion attempt; `runs` gives the value of `self.runs` read at loop
iteration `i` (the flag is written by `MainWindow.abort` from the UI thread).
The `image_converted` signal is connected to `MainWindow.image_converted`, so
an emission updates the emitted item; an uncaught exception aborts the loop:
the remaining items are not visited and `finished` is never emitted. -/
def convertImagesAux (convert : String → ConvOutcome) (runs : ℕ → Bool) :
    List LwItem → ℕ → WorkerRun
  | [], _ => { items := [], events := [], finishedCount := 1 }
  | lw_item :: rest, i =>
    if runs i && !lw_item.processed then
      match convert lw_item.text with
      | ConvOutcome.exn =>
        { items := lw_item :: rest, events := [], finishedCount := 0 }
      | ConvOutcome.ok success =>
        let r := convertImagesAux convert runs rest (i + 1)
        { items := MainWindow.image_converted lw_item success :: r.items
          events := (lw_item.text, success) :: r.events
          finishedCount := r.finishedCount }
    else
      let r := convertImagesAux convert runs rest (i + 1)
      { items := lw_item :: r.items
        events := r.events
        finishedCount := r.finishedCount }

/-- `Worker.convert_images`, started at iteration 0. -/
def Worker.convert_images (convert : String → ConvOutcome) (runs : ℕ → Bool)
    (images_to_convert : List LwItem) : WorkerRun :=
  convertImagesAux convert runs images_to_convert 0

/-- The `Worker` object as `MainWindow.convert_images` constructs it. -/
structure WorkerState where
  images_to_convert : List LwItem
  quality : ℕ
  size : ℚ
  folder : String
  runs : Bool
  deriving DecidableEq, Repr

/-- What a batch-start invocation did: either show the warning message box
and return `False` without creating a worker or a thread, or create a worker,
move it to a new thread and show a progress dialog with the given maximum. -/
inductive ConvertStart where
  | noop (title message : String)
  | started (worker : WorkerState) (progressMax : ℕ)
  deriving DecidableEq, Repr

/-- `MainWindow.convert_images` (batch start): read quality, size
(`spn_size.value() / 100.0`) and the output folder (`le_outputDir.text() or
"reduced"`), collect the list rows; the source counts the pending rows with a
comprehension of sentinel `1`s, modelled here by filtering the pending rows
(only emptiness and length are used).  With no pending row it shows the
warning box and stops; otherwise it hands all rows to a fresh `Worker`. -/
def MainWindow.convert_images (lw_items : List LwItem)
    (spn_quality spn_size : ℕ) (le_outputDir : String) : ConvertStart :=
  let quality := spn_quality
  let size : ℚ := (spn_size : ℚ) / 100
  let folder := if le_outputDir = "" then "reduced" else le_outputDir
  let images_to_convert := lw_items.filter (fun lw_item => !lw_item.processed)
  if images_to_convert.isEmpty then
    ConvertStart.noop "No image to convert" "All the images are converted."
  else
    ConvertStart.started
      { images_to_convert := lw_items
        quality := quality
        size := size
        folder := folder
        runs := true }
      images_to_convert.length

/-- `MainWindow.abort`: quit the thread (not modelled) and set the worker's
`runs` flag to `False`. -/
def MainWindow.abort (w : WorkerState) : WorkerState :=
  { w with runs := false }

/-- `MainWindow.add_file(path)`: if no existing row already has this text,
append a new item with the unchecked icon and `processed = False`; otherwise
leave the list as it is. -/
def MainWindow.add_file (lw_files : List LwItem) (path : String) : List LwItem :=
  let items := lw_files.map LwItem.text
  if path ∈ items then lw_files
  else lw_files ++ [{ text := path, icon := Icon.unchecked, processed := false }]

/-! ### Concrete inputs used by witnesses and counterexamples -/

/-- A file system holding one readable 800×600 image. -/
def fsOne : FS := [("/a/b/c.png", { width := 800, height := 600 })]

/-- The `CustomImage` that `CustomImage.init fsOne "/a/b/c.png" "reduced"`
produces. -/
def ciOne : CustomImage :=
  { image := { width := 800, height := 600 }
    width := 800
    height := 600
    path := "/a/b/c.png"
    reduced_path := "/a/b/reduced/c.png" }

/-- A conversion environment where source `/img/b.png` raises on open and
every other source converts successfully. -/
def exnConvert (path : String) : ConvOutcome :=
  if path = "/img/b.png" then ConvOutcome.exn else ConvOutcome.ok true

/-- A conversion environment where every attempt succeeds. -/
def okConvert (_path : String) : ConvOutcome :=
  ConvOutcome.ok true

/-- A three-item pending batch whose middle source is the unreadable one. -/
def threeItems : List LwItem :=
  [{ text := "/img/a.png", icon := Icon.unchecked, processed := false },
   { text := "/img/b.png", icon := Icon.unchecked, processed := false },
   { text := "/img/c.png", icon := Icon.unchecked, processed := false }]

/-- A two-item pending batch of readable sources. -/
def twoItems : List LwItem :=
  [{ text := "/img/a.png", icon := Icon.unchecked, processed := false },
   { text := "/img/c.png", icon := Icon.unchecked, processed := false }]

/-! ### Helper lemmas -/

lemma rat_floor_eq_intFloor (q : ℚ) : q.floor = ⌊q⌋ := by
  rw [Rat.floor_def', Rat.floor_def]

lemma pyRound_nonneg (q : ℚ) (h : 0 ≤ q) : 0 ≤ pyRound q := by
  have hf : 0 ≤ q.floor := by
    rw [rat_floor_eq_intFloor]
    exact Int.floor_nonneg.mpr h
  simp only [pyRound]
  split_ifs <;> omega

/-- `CustomImage.__init__` on a readable path, in solved form. -/
lemma CustomImage.init_eq (fs : FS) (path folder : String) (img : PILImage)
    (h : fs.openFile path = some img) :
    CustomImage.init fs path folder = some
      { image := img
        width := img.width
        height := img.height
        path := path
        reduced_path := join3 (dirname path) folder (basename path) } := by
  simp [CustomImage.init, h]

/-- The characters after the last slash contain no slash. -/
lemma splitAtLastSlash_snd_no_slash (l : List Char) :
    Char.ofNat 47 ∉ (splitAtLastSlash l).2 := by
  induction l with
  | nil => simp [splitAtLastSlash]
  | cons c rest ih =>
    by_cases hr : Char.ofNat 47 ∈ rest
    · simpa [splitAtLastSlash, hr] using ih
    · by_cases hc : c = Char.ofNat 47
      · simpa [splitAtLastSlash, hr, hc] using hr
      · simp [splitAtLastSlash, hr, hc, eq_comm]

/-- `posixpath.join` inserts exactly one separator when the left part is
nonempty and slash-free at its end and the right part does not start with a
slash. -/
lemma joinOneL_sep (path b : List Char) (hp : path ≠ [])
    (hlast : path.getLast? ≠ some (Char.ofNat 47))
    (hb : b.head? ≠ some (Char.ofNat 47)) :
    joinOneL path b = path ++ Char.ofNat 47 :: b := by
  simp [joinOneL, hb, hp, hlast]

lemma slash_data : "/".data = [Char.ofNat 47] := by decide

/-- The output path computed by `__init__`, whatever the opened image was. -/
lemma CustomImage.init_reduced_path (fs : FS) (path folder : String)
    (ci : CustomImage) (hci : CustomImage.init fs path folder = some ci) :
    ci.reduced_path = join3 (dirname path) folder (basename path) := by
  cases hop : fs.openFile path with
  | none => simp [CustomImage.init, hop] at hci
  | some img =>
    rw [CustomImage.init_eq fs path folder img hop] at hci
    rw [← Option.some_inj.mp hci]

/-- `os.path.join(a, folder, base)` concatenates with single separators when
`a` is nonempty without a trailing slash, `folder` is nonempty without a
leading or trailing slash, and `base` has no leading slash. -/
lemma join3_formula (a folder base : String)
    (ha1 : a.data ≠ []) (ha2 : a.data.getLast? ≠ some (Char.ofNat 47))
    (hf1 : folder.data ≠ []) (hf2 : folder.data.head? ≠ some (Char.ofNat 47))
    (hf3 : folder.data.getLast? ≠ some (Char.ofNat 47))
    (hb : base.data.head? ≠ some (Char.ofNat 47)) :
    join3 a folder base = a ++ "/" ++ folder ++ "/" ++ base := by
  apply String.ext
  obtain ⟨f0, ftl, hfd⟩ : ∃ f0 ftl, folder.data = f0 :: ftl := by
    cases hfd : folder.data with
    | nil => exact absurd hfd hf1
    | cons f0 ftl => exact ⟨f0, ftl, rfl⟩
  have h₁ : joinOneL a.data folder.data = a.data ++ Char.ofNat 47 :: folder.data :=
    joinOneL_sep a.data folder.data ha1 ha2 hf2
  have h₂ : joinOneL (a.data ++ Char.ofNat 47 :: folder.data) base.data
      = (a.data ++ Char.ofNat 47 :: folder.data) ++ Char.ofNat 47 :: base.data := by
    apply joinOneL_sep
    · simp
    · rw [List.getLast?_append_cons, hfd, List.getLast?_cons_cons, ← hfd]
      exact hf3
    · exact hb
  show joinOneL (joinOneL a.data folder.data) base.data = _
  rw [h₁, h₂]
  simp [String.data_append, slash_data]

/-! ### The claims -/

/-- C9: the boolean `reduce_image` returns is exactly `os.path.exists` on the
output path after the save step — true iff the output file is there then.
Nothing else feeds the flag: in particular, a save that leaves no file behind
still reports true whenever the output file already existed before the call,
so the caller cannot tell failure causes apart. -/
theorem reduce_image_ret_iff_exists (ci : CustomImage) (fs : FS) (size : ℚ)
    (quality : ℕ) (saveWrites : Bool) :
    ((ci.reduce_image fs size quality saveWrites).ret = true
      ↔ ((ci.reduce_image fs size quality saveWrites).fs.lookup
          ci.reduced_path).isSome = true)
    ∧ (ci.reduce_image fs size quality false).ret = fs.existsFile ci.reduced_path := by
  constructor
  · simp [CustomImage.reduce_image, FS.existsFile]
  · simp [CustomImage.reduce_image]

/-- C3: for a readable source image of dimensions W×H, a size factor in
(0,1] and a quality in [1,100], the image written at the output path has
dimensions round(W·size) × round(H·size). -/
theorem reduce_image_dimensions (fs : FS) (path folder : String)
    (W H : ℕ) (ci : CustomImage) (size : ℚ) (quality : ℕ)
    (himg : fs.openFile path = some { width := W, height := H })
    (hci : CustomImage.init fs path folder = some ci)
    (h0 : 0 < size) (h1 : size ≤ 1) (hq1 : 1 ≤ quality) (hq100 : quality ≤ 100) :
    (((ci.reduce_image fs size quality true).fs.lookup ci.reduced_path).map
        (fun img => ((img.width : ℤ), (img.height : ℤ))))
      = some (pyRound ((W : ℚ) * size), pyRound ((H : ℚ) * size)) := by
  rw [CustomImage.init_eq fs path folder _ himg] at hci
  have hW : ci.width = W := by rw [← Option.some_inj.mp hci]
  have hH : ci.height = H := by rw [← Option.some_inj.mp hci]
  have hWr : 0 ≤ pyRound ((W : ℚ) * size) :=
    pyRound_nonneg _ (mul_nonneg (Nat.cast_nonneg W) (le_of_lt h0))
  have hHr : 0 ≤ pyRound ((H : ℚ) * size) :=
    pyRound_nonneg _ (mul_nonneg (Nat.cast_nonneg H) (le_of_lt h0))
  simp [CustomImage.reduce_image, FS.save, List.lookup, hW, hH,
    Int.toNat_of_nonneg hWr, Int.toNat_of_nonneg hHr]

/-- C4: reducing the same source twice with the same size and quality: the
first run returns true, reopening the source afterwards yields the same
object (the source file is untouched), the second run returns true again,
and after the second run — which overwrote the first output — the output
path carries the same file contents (in particular the same dimensions) as
after the first run. -/
theorem reduce_image_idempotent (fs : FS) (path folder : String)
    (ci : CustomImage) (size : ℚ) (quality : ℕ)
    (hci : CustomImage.init fs path folder = some ci)
    (hne : ci.reduced_path ≠ path) :
    (ci.reduce_image fs size quality true).ret = true
    ∧ CustomImage.init (ci.reduce_image fs size quality true).fs path folder
        = some ci
    ∧ (ci.reduce_image (ci.reduce_image fs size quality true).fs size quality
        true).ret = true
    ∧ (ci.reduce_image (ci.reduce_image fs size quality true).fs size quality
          true).fs.lookup ci.reduced_path
        = (ci.reduce_image fs size quality true).fs.lookup ci.reduced_path := by
  cases hop : fs.openFile path with
  | none => simp [CustomImage.init, hop] at hci
  | some img =>
    rw [CustomImage.init_eq fs path folder img hop] at hci
    have hlook : ((ci.reduce_image fs size quality true).fs).lookup path
        = fs.lookup path := by
      simp only [CustomImage.reduce_image, FS.save]
      simp [List.lookup, beq_eq_false_iff_ne.mpr (Ne.symm hne)]
    refine ⟨?_, ?_, ?_, ?_⟩
    · simp [CustomImage.reduce_image, FS.save, FS.existsFile, List.lookup]
    · have hop2 : ((ci.reduce_image fs size quality true).fs).openFile path
          = some img := by
        show ((ci.reduce_image fs size quality true).fs).lookup path = some img
        rw [hlook]
        exact hop
      rw [CustomImage.init_eq _ path folder img hop2]
      exact hci
    · simp [CustomImage.reduce_image, FS.save, FS.existsFile, List.lookup]
    · simp [CustomImage.reduce_image, FS.save, List.lookup]

/-- C6: the output path fixed at construction is
parent_dir(source)/folder/basename(source) — for any source path whose
parent directory is nonempty without a trailing slash and any folder name
that is nonempty with no leading or trailing slash — and it is determined by
the source path and the folder alone: constructing the object over any file
system yields the same output path. -/
theorem reduced_path_formula (fs : FS) (path folder : String)
    (ci : CustomImage)
    (hci : CustomImage.init fs path folder = some ci)
    (hd1 : (dirname path).data ≠ [])
    (hd2 : (dirname path).data.getLast? ≠ some (Char.ofNat 47))
    (hf1 : folder.data ≠ [])
    (hf2 : folder.data.head? ≠ some (Char.ofNat 47))
    (hf3 : folder.data.getLast? ≠ some (Char.ofNat 47)) :
    ci.reduced_path = dirname path ++ "/" ++ folder ++ "/" ++ basename path
    ∧ ∀ (fs2 : FS) (ci2 : CustomImage),
        CustomImage.init fs2 path folder = some ci2 →
        ci2.reduced_path = ci.reduced_path := by
  have hb : (basename path).data.head? ≠ some (Char.ofNat 47) := by
    intro h
    apply splitAtLastSlash_snd_no_slash path.data
    exact List.mem_of_mem_head? (l := (basename path).data) (by rw [h]; rfl)
  constructor
  · rw [CustomImage.init_reduced_path fs path folder ci hci]
    exact join3_formula _ _ _ hd1 hd2 hf1 hf2 hf3 hb
  · intro fs2 ci2 hci2
    rw [CustomImage.init_reduced_path fs2 path folder ci2 hci2,
      CustomImage.init_reduced_path fs path folder ci hci]

section
attribute [local semireducible] Rat.mul Rat.inv Rat.add Rat.sub

/-- Witness for C3: an 800×600 image reduced at size factor 1/2 and quality
75 is written as a 400×300 image. -/
theorem reduce_image_dimensions_witness :
    fsOne.openFile "/a/b/c.png" = some { width := 800, height := 600 }
    ∧ CustomImage.init fsOne "/a/b/c.png" "reduced" = some ciOne
    ∧ 0 < (1 : ℚ) / 2 ∧ (1 : ℚ) / 2 ≤ 1
    ∧ (((ciOne.reduce_image fsOne ((1 : ℚ) / 2) 75 true).fs.lookup
          ciOne.reduced_path).map
        (fun img => ((img.width : ℤ), (img.height : ℤ))))
        = some (400, 300) :=
  ⟨by decide, by decide, by decide, by decide,
    (reduce_image_dimensions fsOne "/a/b/c.png" "reduced" 800 600 ciOne
      ((1 : ℚ) / 2) 75 (by decide) (by decide) (by decide) (by decide)
      (by decide) (by decide)).trans (by decide)⟩

/-- Witness for C4 at the same concrete image, size 1/2 and quality 75. -/
theorem reduce_image_idempotent_witness :
    CustomImage.init fsOne "/a/b/c.png" "reduced" = some ciOne
    ∧ ciOne.reduced_path ≠ "/a/b/c.png"
    ∧ ((ciOne.reduce_image fsOne ((1 : ℚ) / 2) 75 true).ret = true
      ∧ CustomImage.init (ciOne.reduce_image fsOne ((1 : ℚ) / 2) 75 true).fs
          "/a/b/c.png" "reduced" = some ciOne
      ∧ (ciOne.reduce_image (ciOne.reduce_image fsOne ((1 : ℚ) / 2) 75 true).fs
          ((1 : ℚ) / 2) 75 true).ret = true
      ∧ (ciOne.reduce_image (ciOne.reduce_image fsOne ((1 : ℚ) / 2) 75 true).fs
            ((1 : ℚ) / 2) 75 true).fs.lookup ciOne.reduced_path
          = (ciOne.reduce_image fsOne ((1 : ℚ) / 2) 75 true).fs.lookup
              ciOne.reduced_path) :=
  ⟨by decide, by decide,
    reduce_image_idempotent fsOne "/a/b/c.png" "reduced" ciOne ((1 : ℚ) / 2) 75
      (by decide) (by decide)⟩

end

/-- Witness for C6: the source `/a/b/c.png` with folder `reduced` gets the
output path `/a/b/reduced/c.png`. -/
theorem reduced_path_formula_witness :
    CustomImage.init fsOne "/a/b/c.png" "reduced" = some ciOne
    ∧ ciOne.reduced_path = "/a/b/reduced/c.png"
    ∧ ciOne.reduced_path
        = dirname "/a/b/c.png" ++ "/" ++ "reduced" ++ "/" ++ basename "/a/b/c.png" :=
  ⟨by decide, by decide,
    (reduced_path_formula fsOne "/a/b/c.png" "reduced" ciOne (by decide)
      (by decide) (by decide) (by decide) (by decide) (by decide)).1⟩

/-- C5: with zero pending rows, batch start performs no conversion, creates
no worker and no thread, and reports the distinct "nothing to do" warning
box. -/
theorem convert_images_no_pending (lw_items : List LwItem)
    (spn_quality spn_size : ℕ) (le_outputDir : String)
    (h : ∀ lw_item ∈ lw_items, lw_item.processed = true) :
    MainWindow.convert_images lw_items spn_quality spn_size le_outputDir
      = ConvertStart.noop "No image to convert" "All the images are converted." := by
  have hfil : lw_items.filter (fun lw_item => !lw_item.processed) = [] := by
    rw [List.filter_eq_nil_iff]
    intro a ha
    simp [h a ha]
  simp [MainWindow.convert_images, hfil]

/-- Witness for C5: one already-converted row, defaults 75/50/"reduced". -/
theorem convert_images_no_pending_witness :
    (∀ lw_item ∈
        [({ text := "/img/a.png", icon := Icon.checked, processed := true } : LwItem)],
      lw_item.processed = true)
    ∧ MainWindow.convert_images
        [{ text := "/img/a.png", icon := Icon.checked, processed := true }]
        75 50 "reduced"
      = ConvertStart.noop "No image to convert" "All the images are converted." :=
  ⟨by decide,
    convert_images_no_pending
      [{ text := "/img/a.png", icon := Icon.checked, processed := true }]
      75 50 "reduced" (by decide)⟩

/-- C10: adding a path that is already some row's text leaves the list
unchanged; adding a new path appends exactly one item with `processed =
false`; consequently a list whose paths are pairwise distinct keeps pairwise
distinct paths across adds. -/
theorem add_file_no_duplicates (lw_files : List LwItem) (path : String) :
    (path ∈ lw_files.map LwItem.text →
      MainWindow.add_file lw_files path = lw_files)
    ∧ (path ∉ lw_files.map LwItem.text →
      MainWindow.add_file lw_files path
        = lw_files ++ [{ text := path, icon := Icon.unchecked, processed := false }])
    ∧ ((lw_files.map LwItem.text).Nodup →
      ((MainWindow.add_file lw_files path).map LwItem.text).Nodup) := by
  refine ⟨fun h => by simp [MainWindow.add_file, h],
    fun h => by simp [MainWindow.add_file, h], fun h => ?_⟩
  by_cases hmem : path ∈ lw_files.map LwItem.text
  · simpa [MainWindow.add_file, hmem] using h
  · simp [MainWindow.add_file, hmem, List.nodup_append, h]

/-- C1, as the code actually behaves: in a three-item pending batch whose
second source raises on open (unreadable or corrupt) while the first
converts successfully, the worker converts item 1 (`processed` becomes
true), the exception then propagates out of the loop: item 2 stays
unprocessed, item 3 is never attempted, only item 1's per-item event is
emitted, and the batch-finished event is never emitted. -/
theorem worker_item_exception (convert : String → ConvOutcome)
    (a b c : String) (runs : ℕ → Bool)
    (ha : convert a = ConvOutcome.ok true)
    (hb : convert b = ConvOutcome.exn)
    (hruns : ∀ i, runs i = true) :
    Worker.convert_images convert runs
        [{ text := a, icon := Icon.unchecked, processed := false },
         { text := b, icon := Icon.unchecked, processed := false },
         { text := c, icon := Icon.unchecked, processed := false }]
      = { items := [{ text := a, icon := Icon.checked, processed := true },
                    { text := b, icon := Icon.unchecked, processed := false },
                    { text := c, icon := Icon.unchecked, processed := false }]
          events := [(a, true)]
          finishedCount := 0 } := by
  simp [Worker.convert_images, convertImagesAux, hruns, ha, hb,
    MainWindow.image_converted]

/-- Counterexample to C1 as claimed: with the concrete environment where
`/img/b.png` is unreadable, item 3 is not attempted (its `processed` stays
false, no event for it) and no batch-finished event is emitted, against the
claim's "items 1 and 3 succeed and the finished event is still emitted". -/
theorem worker_exception_counterexample :
    (Worker.convert_images exnConvert (fun _ => true) threeItems).finishedCount = 0
    ∧ ((Worker.convert_images exnConvert (fun _ => true) threeItems).items.map
        (fun lw_item => lw_item.processed)) = [true, false, false]
    ∧ (Worker.convert_images exnConvert (fun _ => true) threeItems).events
        = [("/img/a.png", true)] := by decide

/-- Witness for C1 (amended) at the concrete three-item batch. -/
theorem worker_item_exception_witness :
    exnConvert "/img/a.png" = ConvOutcome.ok true
    ∧ exnConvert "/img/b.png" = ConvOutcome.exn
    ∧ Worker.convert_images exnConvert (fun _ => true)
        [{ text := "/img/a.png", icon := Icon.unchecked, processed := false },
         { text := "/img/b.png", icon := Icon.unchecked, processed := false },
         { text := "/img/c.png", icon := Icon.unchecked, processed := false }]
      = { items := [{ text := "/img/a.png", icon := Icon.checked, processed := true },
                    { text := "/img/b.png", icon := Icon.unchecked, processed := false },
                    { text := "/img/c.png", icon := Icon.unchecked, processed := false }]
          events := [("/img/a.png", true)]
          finishedCount := 0 } :=
  ⟨by decide, by decide,
    worker_item_exception exnConvert "/img/a.png" "/img/b.png" "/img/c.png"
      (fun _ => true) (by decide) (by decide) (fun _ => rfl)⟩

/-- Cancellation semantics of the worker loop, in solved form: with every
item pending, every conversion succeeding, and the flag reading true for the
first k iterations and false from then on, the run marks exactly the first k
items (in order), leaves the rest untouched, emits one event per converted
item and one finished event. -/
lemma convertImagesAux_cancel (convert : String → ConvOutcome) (k : ℕ)
    (items : List LwItem) (i : ℕ)
    (hok : ∀ lw_item ∈ items, convert lw_item.text = ConvOutcome.ok true)
    (hpend : ∀ lw_item ∈ items, lw_item.processed = false) :
    convertImagesAux convert (fun n => decide (n < k)) items i
      = { items := (items.take (k - i)).map
            (fun lw_item => MainWindow.image_converted lw_item true)
            ++ items.drop (k - i)
          events := (items.take (k - i)).map (fun lw_item => (lw_item.text, true))
          finishedCount := 1 } := by
  induction items generalizing i with
  | nil => simp [convertImagesAux]
  | cons head tail ih =>
    have hokh := hok head (List.mem_cons_self _ _)
    have hpendh := hpend head (List.mem_cons_self _ _)
    have hokt : ∀ lw_item ∈ tail, convert lw_item.text = ConvOutcome.ok true :=
      fun x hx => hok x (List.mem_cons_of_mem _ hx)
    have hpendt : ∀ lw_item ∈ tail, lw_item.processed = false :=
      fun x hx => hpend x (List.mem_cons_of_mem _ hx)
    by_cases hik : i < k
    · have hk1 : k - i = (k - (i + 1)) + 1 := by omega
      simp [convertImagesAux, hik, hpendh, hokh, ih (i + 1) hokt hpendt, hk1]
    · have hk0 : k - i = 0 := by omega
      have hk1 : k - (i + 1) = 0 := by omega
      simp [convertImagesAux, hik, ih (i + 1) hokt hpendt, hk0, hk1]

/-- C2: N pending jobs, every conversion succeeding, and the running flag —
which the loop consults before every item — reading false from the k-th
iteration on (the user cancelled after the k-th completed item): the worker
performs exactly k conversion attempts, so no write happens for jobs
k+1..N, exactly k jobs end up marked processed, the jobs after the k-th come
back untouched, and the finished event is still emitted. -/
theorem worker_cancellation (convert : String → ConvOutcome) (k : ℕ)
    (items : List LwItem)
    (hok : ∀ lw_item ∈ items, convert lw_item.text = ConvOutcome.ok true)
    (hpend : ∀ lw_item ∈ items, lw_item.processed = false)
    (hk : k ≤ items.length) :
    (Worker.convert_images convert (fun n => decide (n < k)) items).events.length
      = k
    ∧ (Worker.convert_images convert (fun n => decide (n < k)) items).items.countP
        (fun lw_item => lw_item.processed) = k
    ∧ (Worker.convert_images convert (fun n => decide (n < k)) items).items.drop k
        = items.drop k
    ∧ (Worker.convert_images convert (fun n => decide (n < k)) items).finishedCount
        = 1 := by
  rw [Worker.convert_images, convertImagesAux_cancel convert k items 0 hok hpend]
  simp only [Nat.sub_zero]
  have hlen : ((items.take k).map
      (fun lw_item => MainWindow.image_converted lw_item true)).length = k := by
    simp [List.length_take, Nat.min_eq_left hk]
  refine ⟨?_, ?_, ?_, ?_⟩
  case refine_1 => simp [List.length_take, Nat.min_eq_left hk]
  case refine_4 => trivial
  · rw [List.countP_append]
    have h1 : ((items.take k).map
        (fun lw_item => MainWindow.image_converted lw_item true)).countP
          (fun lw_item => lw_item.processed)
        = ((items.take k).map
            (fun lw_item => MainWindow.image_converted lw_item true)).length := by
      rw [List.countP_eq_length]
      intro x hx
      obtain ⟨y, hy, rfl⟩ := List.mem_map.mp hx
      simp [MainWindow.image_converted]
    have h2 : (items.drop k).countP (fun lw_item => lw_item.processed) = 0 := by
      rw [List.countP_eq_zero]
      intro x hx
      simp [hpend x (List.mem_of_mem_drop hx)]
    rw [h1, h2, hlen]
    omega
  · rw [List.drop_left' hlen]

/-- Witness for C2: two pending jobs, cancellation after the first completed
item — one attempt, one processed job, the second job untouched, finished
emitted. -/
theorem worker_cancellation_witness :
    (∀ lw_item ∈ twoItems, okConvert lw_item.text = ConvOutcome.ok true)
    ∧ (∀ lw_item ∈ twoItems, lw_item.processed = false)
    ∧ 1 ≤ twoItems.length
    ∧ ((Worker.convert_images okConvert (fun n => decide (n < 1)) twoItems).events.length
        = 1
      ∧ (Worker.convert_images okConvert (fun n => decide (n < 1)) twoItems).items.countP
          (fun lw_item => lw_item.processed) = 1
      ∧ (Worker.convert_images okConvert (fun n => decide (n < 1)) twoItems).items.drop 1
          = twoItems.drop 1
      ∧ (Worker.convert_images okConvert (fun n => decide (n < 1)) twoItems).finishedCount
          = 1) :=
  ⟨by decide, by decide, by decide,
    worker_cancellation okConvert 1 twoItems (by decide) (by decide) (by decide)⟩

/-- The worker loop relates input and output items pointwise: the text is
kept, a set `processed` flag is never reset, and the flag becomes set only
when that item's conversion attempt returned success. -/
lemma convertImagesAux_forall₂ (convert : String → ConvOutcome)
    (runs : ℕ → Bool) (items : List LwItem) (i : ℕ) :
    List.Forall₂ (fun pre post =>
        post.text = pre.text
        ∧ (pre.processed = true → post.processed = true)
        ∧ (post.processed = true →
            pre.processed = true ∨ convert pre.text = ConvOutcome.ok true))
      items (convertImagesAux convert runs items i).items := by
  induction items generalizing i with
  | nil => simp [convertImagesAux]
  | cons head tail ih =>
    by_cases hcond : (runs i && !head.processed) = true
    · cases hc : convert head.text with
      | exn =>
        simp only [convertImagesAux, hcond, if_true, hc]
        exact List.forall₂_same.mpr
          (fun x _ => ⟨rfl, fun hx => hx, fun hx => Or.inl hx⟩)
      | ok success =>
        simp only [convertImagesAux, hcond, if_true, hc]
        refine List.Forall₂.cons ⟨?_, ?_, ?_⟩ (ih (i + 1))
        · cases success <;> simp [MainWindow.image_converted]
        · intro hp
          have hfalse : head.processed = false := by
            cases hpp : head.processed
            · rfl
            · rw [hpp] at hcond
              simp at hcond
          rw [hfalse] at hp
          cases hp
        · intro hp
          cases success
          · simp only [MainWindow.image_converted, if_neg] at hp
            exact Or.inl (by simpa using hp)
          · exact Or.inr hc
    · simp only [convertImagesAux, hcond, if_false]
      exact List.Forall₂.cons ⟨rfl, fun hx => hx, fun hx => Or.inl hx⟩ (ih (i + 1))

/-- C7: over any worker run, each item keeps its text, an item's `processed`
flag becomes true only if its conversion attempt succeeded, and a flag that
is already true is never reset to false. -/
theorem processed_flag_invariant (convert : String → ConvOutcome)
    (runs : ℕ → Bool) (items : List LwItem) :
    List.Forall₂ (fun pre post =>
        post.text = pre.text
        ∧ (pre.processed = true → post.processed = true)
        ∧ (post.processed = true →
            pre.processed = true ∨ convert pre.text = ConvOutcome.ok true))
      items (Worker.convert_images convert runs items).items :=
  convertImagesAux_forall₂ convert runs items 0

/-- The worker loop emits `finished` exactly once when no attempted
conversion raises. -/
lemma convertImagesAux_finished (convert : String → ConvOutcome)
    (runs : ℕ → Bool) (items : List LwItem) (i : ℕ)
    (hnoexn : ∀ lw_item ∈ items, convert lw_item.text ≠ ConvOutcome.exn) :
    (convertImagesAux convert runs items i).finishedCount = 1 := by
  induction items generalizing i with
  | nil => simp [convertImagesAux]
  | cons head tail ih =>
    have hh := hnoexn head (List.mem_cons_self _ _)
    have ht : ∀ lw_item ∈ tail, convert lw_item.text ≠ ConvOutcome.exn :=
      fun x hx => hnoexn x (List.mem_cons_of_mem _ hx)
    by_cases hcond : (runs i && !head.processed) = true
    · cases hc : convert head.text with
      | exn => exact absurd hc hh
      | ok success => simp [convertImagesAux, hcond, hc, ih (i + 1) ht]
    · simp [convertImagesAux, hcond, ih (i + 1) ht]

/-- C8, as the code actually behaves: every batch run in which no attempted
conversion raises an exception emits the batch-finished event exactly once —
after the last item under normal completion, and equally when the
cancellation check stops further processing. -/
theorem finished_emitted_once (convert : String → ConvOutcome)
    (runs : ℕ → Bool) (items : List LwItem)
    (hnoexn : ∀ lw_item ∈ items, convert lw_item.text ≠ ConvOutcome.exn) :
    (Worker.convert_images convert runs items).finishedCount = 1 :=
  convertImagesAux_finished convert runs items 0 hnoexn

/-- Counterexample to C8 as claimed ("every batch run emits exactly one
batch-finished event"): a one-item batch whose source raises on open emits
no batch-finished event at all. -/
theorem finished_emitted_once_counterexample :
    (Worker.convert_images exnConvert (fun _ => true)
        [{ text := "/img/b.png", icon := Icon.unchecked, processed := false }]).finishedCount
      = 0 := by decide

/-- Witness for C8 (amended): an exception-free three-item batch under a
flag that flips between iterations still emits finished exactly once. -/
theorem finished_emitted_once_witness :
    (∀ lw_item ∈ threeItems, okConvert lw_item.text ≠ ConvOutcome.exn)
    ∧ (Worker.convert_images okConvert (fun n => decide (n % 2 = 0))
        threeItems).finishedCount = 1 :=
  ⟨by decide,
    finished_emitted_once okConvert (fun n => decide (n % 2 = 0)) threeItems
      (by decide)⟩

end PyConverter
